import Mathlib

/-!
# Bill-splitter: shallow embedding and verification

Shallow embedding of the bill-session data model, the fee engine and the
command/callback handlers of `src/main.py` (a Telegram bill-splitter bot),
together with proofs and refutations of the specification's claims.

Python floats are modelled as rationals (`ℚ`); the Mongo bill document is
modelled as the structure `Bill`; each handler's state mutation is modelled
as a pure function on `Bill` (message replies are dropped; a deleted bill
is `none`).
-/

namespace BillSplit

/-- Fee modes, from the `fees_mode` string field of the bill document
(`"both_inclusive"`, `"sc_exclusive_vat_inclusive"`, `"both_exclusive"`). -/
inductive FeesMode
  | both_inclusive
  | sc_exclusive_vat_inclusive
  | both_exclusive
deriving DecidableEq, Repr

/-- The two supported currencies. -/
inductive Currency
  | THB
  | JPY
deriving DecidableEq, Repr

/-- One entry of an item's `claimed_by` list: `{"user_id": ..., "name": ...}`. -/
structure Claim where
  user_id : Nat
  name : String
deriving DecidableEq, Repr

/-- One entry of the bill's `items` list. -/
structure Item where
  id : Nat
  name : String
  price : ℚ
  claimed_by : List Claim
deriving DecidableEq, Repr

/-- The bill document (`new_bill_doc` in `src/main.py`); `members` models the
insertion-ordered dict `user_id -> display name`, timestamps are dropped. -/
structure Bill where
  creator_id : Nat
  currency : Option Currency
  jpy_to_thb_rate : Option ℚ
  service_charge_pct : Option ℚ
  vat_pct : Option ℚ
  fees_mode : Option FeesMode
  items : List Item
  members : List (Nat × String)
  next_item_id : Nat
  is_finalized : Bool
  awaiting_photo : Bool
  awaiting_manual_rate : Bool
  awaiting_fees : Bool
deriving DecidableEq, Repr

/-- `bill.get("service_charge_pct") or 0` (`None` and `0.0` both give `0`). -/
def eff_sc (bill : Bill) : ℚ := bill.service_charge_pct.getD 0

/-- `bill.get("vat_pct") or 0`. -/
def eff_vat (bill : Bill) : ℚ := bill.vat_pct.getD 0

/-- `item_per_person` (src/main.py line 124): `price / n if n > 0 else price`. -/
def item_per_person (item : Item) : ℚ :=
  if 0 < item.claimed_by.length then item.price / item.claimed_by.length
  else item.price

/-- Does `item` carry a claim by user `uid`?  Mirrors the membership tests
`any(str(c["user_id"]) == uid_str ...)` of the Python code. -/
def claims_user (item : Item) (uid : Nat) : Bool :=
  item.claimed_by.any (fun c => c.user_id == uid)

/-- `person_total` (line 129): for each item, the per-person share is added
once if the user has a claim on it (the inner loop `break`s on first match). -/
def person_total (bill : Bill) (uid : Nat) : ℚ :=
  (bill.items.map (fun item => if claims_user item uid then item_per_person item else 0)).sum

/-- `bill_total` (line 140): sum of all item prices. -/
def bill_total (bill : Bill) : ℚ :=
  (bill.items.map (fun item => item.price)).sum

/-- `bill_grand_total` (lines 144-159). -/
def bill_grand_total (bill : Bill) : ℚ :=
  let subtotal := bill_total bill
  let sc_pct := eff_sc bill
  let vat_pct := eff_vat bill
  match bill.fees_mode with
  | some FeesMode.both_inclusive => subtotal
  | some FeesMode.sc_exclusive_vat_inclusive => subtotal * (1 + sc_pct / 100)
  | some FeesMode.both_exclusive =>
      let after_sc := subtotal * (1 + sc_pct / 100)
      after_sc * (1 + vat_pct / 100)
  | none => subtotal

/-- `person_grand_total` (lines 162-169). -/
def person_grand_total (bill : Bill) (uid : Nat) : ℚ :=
  let subtotal := bill_total bill
  if subtotal = 0 then 0
  else
    let p_subtotal := person_total bill uid
    bill_grand_total bill * (p_subtotal / subtotal)

/-- The quadruple `(item_subtotal, sc_amount, vat_amount, total)` returned by
`person_fee_breakdown`. -/
structure Breakdown where
  item_subtotal : ℚ
  sc_amount : ℚ
  vat_amount : ℚ
  total : ℚ
deriving DecidableEq, Repr

/-- `person_fee_breakdown` (lines 172-206).  The `if divisor` and `if vat_pct`
truthiness tests of the Python become `≠ 0` tests. -/
def person_fee_breakdown (bill : Bill) (uid : Nat) : Breakdown :=
  let subtotal := bill_total bill
  if subtotal = 0 then ⟨0, 0, 0, 0⟩
  else
    let p_sub := person_total bill uid
    let sc_pct := eff_sc bill
    let vat_pct := eff_vat bill
    match bill.fees_mode with
    | some FeesMode.both_inclusive =>
        let divisor := (1 + sc_pct / 100) * (1 + vat_pct / 100)
        let base := if divisor ≠ 0 then p_sub / divisor else p_sub
        let sc_amt := base * sc_pct / 100
        let vat_amt := (base + sc_amt) * vat_pct / 100
        ⟨p_sub, sc_amt, vat_amt, p_sub⟩
    | some FeesMode.sc_exclusive_vat_inclusive =>
        let total := p_sub * (1 + sc_pct / 100)
        let sc_amt := p_sub * sc_pct / 100
        let before_vat := if vat_pct ≠ 0 then total / (1 + vat_pct / 100) else total
        ⟨p_sub, sc_amt, total - before_vat, total⟩
    | some FeesMode.both_exclusive =>
        let sc_amt := p_sub * sc_pct / 100
        let vat_amt := (p_sub + sc_amt) * vat_pct / 100
        ⟨p_sub, sc_amt, vat_amt, p_sub + sc_amt + vat_amt⟩
    | none =>
        ⟨p_sub, 0, 0, p_sub⟩

/-- `get_item` (line 117): first item with the given id. -/
def get_item (bill : Bill) (item_id : Nat) : Option Item :=
  bill.items.find? (fun item => item.id == item_id)

/-- `add_item_to_bill` (lines 104-114); returns the updated bill and the item. -/
def add_item_to_bill (bill : Bill) (name : String) (price : ℚ) : Bill × Item :=
  let item : Item := ⟨bill.next_item_id, name, price, []⟩
  ({ bill with items := bill.items ++ [item], next_item_id := bill.next_item_id + 1 },
   item)

/-- In-place mutation of the first item with the given id (the Python code
mutates the object returned by `get_item`, which aliases the list entry). -/
def update_item (items : List Item) (item_id : Nat) (f : Item → Item) : List Item :=
  match items with
  | [] => []
  | item :: rest =>
      if item.id == item_id then f item :: rest
      else item :: update_item rest item_id f

/-- The claim-toggle of the `pick:` callback (lines 1146-1152): remove all of
the user's claims if present, otherwise append a claim with the current
display name. -/
def toggle_claims (claims : List Claim) (uid : Nat) (name : String) : List Claim :=
  if claims.any (fun c => c.user_id == uid) then
    claims.filter (fun c => c.user_id != uid)
  else
    claims ++ [⟨uid, name⟩]

/-- The `pick:` callback of `callback_handler` (lines 1134-1160): on a found
item, auto-join the user and toggle their claim. -/
def pick_callback (bill : Bill) (uid : Nat) (name : String) (item_id : Nat) : Bill :=
  match get_item bill item_id with
  | none => bill
  | some _ =>
      let members :=
        if bill.members.any (fun m => m.1 == uid) then bill.members
        else bill.members ++ [(uid, name)]
      { bill with
          members := members,
          items := update_item bill.items item_id
            (fun item => { item with claimed_by := toggle_claims item.claimed_by uid name }) }

/-- Outcomes of `/assign` (`cmd_assign`, lines 770-814), one per early return. -/
inductive AssignResult
  | not_creator
  | item_not_found
  | member_not_joined
  | already_claimed
  | assigned
deriving DecidableEq, Repr

/-- Python's case-insensitive comparison `a.lower() == b.lower()`, modelled
character by character. -/
def lower_eq (a b : String) : Bool :=
  a.data.map Char.toLower == b.data.map Char.toLower

/-- The display-name lookup of `cmd_assign` (lines 795-799): first member whose
stored name case-insensitively equals `@username`. -/
def find_member_by_name (bill : Bill) (username : String) : Option (Nat × String) :=
  bill.members.find? (fun m => lower_eq m.2 ("@" ++ username))

/-- `cmd_assign` (lines 770-814), after argument parsing. -/
def cmd_assign (bill : Bill) (caller : Nat) (item_id : Nat) (username : String) :
    Bill × AssignResult :=
  if caller != bill.creator_id then (bill, AssignResult.not_creator)
  else
    match get_item bill item_id with
    | none => (bill, AssignResult.item_not_found)
    | some item =>
        match find_member_by_name bill username with
        | none => (bill, AssignResult.member_not_joined)
        | some target =>
            if item.claimed_by.any (fun c => c.user_id == target.1) then
              (bill, AssignResult.already_claimed)
            else
              let f := fun (it : Item) =>
                { it with claimed_by := it.claimed_by ++ [⟨target.1, target.2⟩] }
              ({ bill with items := update_item bill.items item_id f },
               AssignResult.assigned)

/-- `cmd_join` (lines 629-650), after the active-bill check. -/
def cmd_join (bill : Bill) (uid : Nat) (name : String) : Bill :=
  if bill.members.any (fun m => m.1 == uid) then bill
  else { bill with members := bill.members ++ [(uid, name)] }

/-- `cmd_additem` (lines 653-685) after parsing of `name` and `price`:
the only numeric validation is `if price <= 0: raise ValueError`. -/
def cmd_additem (bill : Bill) (name : String) (price : ℚ) : Bill :=
  if price ≤ 0 then bill else (add_item_to_bill bill name price).1

/-- `cmd_pick` (lines 703-742) after parsing. -/
def cmd_pick (bill : Bill) (uid : Nat) (name : String) (item_id : Nat) : Bill :=
  if !(bill.members.any (fun m => m.1 == uid)) then bill
  else
    match get_item bill item_id with
    | none => bill
    | some item =>
        if item.claimed_by.any (fun c => c.user_id == uid) then bill
        else
          let f := fun (it : Item) => { it with claimed_by := it.claimed_by ++ [⟨uid, name⟩] }
          { bill with items := update_item bill.items item_id f }

/-- `cmd_unpick` (lines 745-767) after parsing. -/
def cmd_unpick (bill : Bill) (uid : Nat) (item_id : Nat) : Bill :=
  match get_item bill item_id with
  | none => bill
  | some _ =>
      let f := fun (it : Item) =>
        { it with claimed_by := it.claimed_by.filter (fun c => c.user_id != uid) }
      { bill with items := update_item bill.items item_id f }

/-- `cmd_resetpicks` (lines 817-842). -/
def cmd_resetpicks (bill : Bill) (uid : Nat) : Bill :=
  let f := fun (it : Item) =>
    { it with claimed_by := it.claimed_by.filter (fun c => c.user_id != uid) }
  { bill with items := bill.items.map f }

/-- `cmd_setfees` (lines 845-927) after parsing: invalid on negative values;
with no mode flag and a positive fee it only shows the mode picker (no state
change); otherwise it stores the fees, forcing the mode to unset when both
percentages are zero (line 915). -/
def cmd_setfees (bill : Bill) (sc vat : ℚ) (mode : Option FeesMode) : Bill :=
  if sc < 0 ∨ vat < 0 then bill
  else if mode = none ∧ (0 < sc ∨ 0 < vat) then bill
  else
    { bill with
        service_charge_pct := some sc,
        vat_pct := some vat,
        fees_mode := if 0 < sc ∨ 0 < vat then mode else none,
        awaiting_fees := false }

/-- `cmd_done` (lines 930-944): finalize unless the item list is empty.
The `finalize` callback (lines 1162-1170) performs the same mutation. -/
def cmd_done (bill : Bill) : Bill :=
  if bill.items.isEmpty then bill else { bill with is_finalized := true }

/-- The `currency:` callback (lines 1006-1029): creator-only, sets the
currency unconditionally (no check that it was previously unset). -/
def currency_callback (bill : Bill) (uid : Nat) (cur : Currency) : Bill :=
  if uid != bill.creator_id then bill
  else { bill with currency := some cur }

/-- The `rate:auto` callback (lines 1031-1049): `if rate:` is a Python
truthiness test, so `None` and `0.0` both fall to the manual-entry branch. -/
def rate_auto_callback (bill : Bill) (fetched : Option ℚ) : Bill :=
  match fetched with
  | some r =>
      if r == 0 then { bill with awaiting_manual_rate := true }
      else { bill with jpy_to_thb_rate := some r }
  | none => { bill with awaiting_manual_rate := true }

/-- The `fees:confirm:` callback (lines 1078-1096). -/
def fees_confirm_callback (bill : Bill) (sc vat : ℚ) (mode : FeesMode) : Bill :=
  { bill with
      service_charge_pct := some sc,
      vat_pct := some vat,
      fees_mode := some mode,
      awaiting_fees := false }

/-- The `fees:none` callback (lines 1120-1132). -/
def fees_none_callback (bill : Bill) : Bill :=
  { bill with
      service_charge_pct := some 0,
      vat_pct := some 0,
      fees_mode := none,
      awaiting_fees := false }

/-- The manual-rate text handler (lines 1262-1283) after parsing. -/
def manual_rate_text (bill : Bill) (rate : ℚ) : Bill :=
  if !bill.awaiting_manual_rate then bill
  else if rate ≤ 0 then bill
  else { bill with jpy_to_thb_rate := some rate, awaiting_manual_rate := false }

/-- `photo_handler` (lines 1175-1257): clears `awaiting_photo` and appends the
OCR-extracted items (fee confirmation happens through later callbacks). -/
def photo_result (bill : Bill) (extracted : List (String × ℚ)) : Bill :=
  extracted.foldl (fun acc p => (add_item_to_bill acc p.1 p.2).1)
    { bill with awaiting_photo := false }

/-- One chat event, covering every state-mutating handler of the bot.  Events
carry the already-parsed command arguments (parsing is out of scope). -/
inductive Event
  | join (uid : Nat) (name : String)
  | additem (name : String) (price : ℚ)
  | pick_cmd (uid : Nat) (name : String) (item_id : Nat)
  | unpick (uid : Nat) (item_id : Nat)
  | assign (uid : Nat) (item_id : Nat) (username : String)
  | resetpicks (uid : Nat)
  | setfees (sc : ℚ) (vat : ℚ) (mode : Option FeesMode)
  | done
  | cancel (uid : Nat)
  | currency_choice (uid : Nat) (cur : Currency)
  | rate_auto (fetched : Option ℚ)
  | rate_manual
  | input_photo
  | input_manual
  | fees_confirm (sc : ℚ) (vat : ℚ) (mode : FeesMode)
  | fees_edit
  | fees_none
  | pick_button (uid : Nat) (name : String) (item_id : Nat)
  | finalize_button
  | rate_text (rate : ℚ)
  | photo (extracted : List (String × ℚ))
deriving DecidableEq, Repr

/-- Dispatch of one event against the stored bill.  Every handler operates on
`get_active_bill`, so a finalized bill is never loaded and stays untouched;
`/cancel` by the creator deletes the document (`none`). -/
def apply_event (bill : Bill) (e : Event) : Option Bill :=
  if bill.is_finalized then some bill
  else
    match e with
    | Event.join uid name => some (cmd_join bill uid name)
    | Event.additem name price => some (cmd_additem bill name price)
    | Event.pick_cmd uid name item_id => some (cmd_pick bill uid name item_id)
    | Event.unpick uid item_id => some (cmd_unpick bill uid item_id)
    | Event.assign uid item_id username => some (cmd_assign bill uid item_id username).1
    | Event.resetpicks uid => some (cmd_resetpicks bill uid)
    | Event.setfees sc vat mode => some (cmd_setfees bill sc vat mode)
    | Event.done => some (cmd_done bill)
    | Event.cancel uid => if uid != bill.creator_id then some bill else none
    | Event.currency_choice uid cur => some (currency_callback bill uid cur)
    | Event.rate_auto fetched => some (rate_auto_callback bill fetched)
    | Event.rate_manual => some { bill with awaiting_manual_rate := true }
    | Event.input_photo => some { bill with awaiting_photo := true }
    | Event.input_manual => some bill
    | Event.fees_confirm sc vat mode => some (fees_confirm_callback bill sc vat mode)
    | Event.fees_edit => some { bill with awaiting_fees := true }
    | Event.fees_none => some (fees_none_callback bill)
    | Event.pick_button uid name item_id => some (pick_callback bill uid name item_id)
    | Event.finalize_button => some (cmd_done bill)
    | Event.rate_text rate => some (manual_rate_text bill rate)
    | Event.photo extracted => some (photo_result bill extracted)

/-- Python `float()` accepts `"inf"`, `"-inf"` and `"nan"` besides finite
decimals; this models the possible results of `float(parts[1])` in
`cmd_additem` (line 673). -/
inductive PyFloat
  | finite (q : ℚ)
  | pos_inf
  | neg_inf
  | nan
deriving DecidableEq, Repr

/-- The IEEE-754 comparison `price <= 0` used by `cmd_additem` (line 674):
`inf <= 0` is false and `nan <= 0` is false. -/
def PyFloat.le_zero : PyFloat → Bool
  | PyFloat.finite q => decide (q ≤ 0)
  | PyFloat.pos_inf => false
  | PyFloat.neg_inf => true
  | PyFloat.nan => false

/-- `cmd_additem` appends the item exactly when `price <= 0` does not hold
(lines 673-680); this is its entire numeric validation. -/
def additem_price_accepted (p : PyFloat) : Bool := !(PyFloat.le_zero p)

/-! ## Shared lemmas about the fee engine -/

/-- The per-mode multiplier relating a raw subtotal to its fee-applied total. -/
def fee_factor (sc_pct vat_pct : ℚ) : Option FeesMode → ℚ
  | some FeesMode.sc_exclusive_vat_inclusive => 1 + sc_pct / 100
  | some FeesMode.both_exclusive => (1 + sc_pct / 100) * (1 + vat_pct / 100)
  | _ => 1

lemma bill_grand_total_eq_factor (bill : Bill) :
    bill_grand_total bill =
      fee_factor (eff_sc bill) (eff_vat bill) bill.fees_mode * bill_total bill := by
  unfold bill_grand_total fee_factor
  cases hm : bill.fees_mode with
  | none => simp
  | some m => cases m <;> simp <;> ring

lemma breakdown_total_eq_factor (bill : Bill) (uid : Nat) :
    (person_fee_breakdown bill uid).total =
      if bill_total bill = 0 then 0
      else fee_factor (eff_sc bill) (eff_vat bill) bill.fees_mode * person_total bill uid := by
  unfold person_fee_breakdown fee_factor
  by_cases h : bill_total bill = 0
  · simp [h]
  · simp only [if_neg h]
    cases hm : bill.fees_mode with
    | none => simp
    | some m => cases m <;> simp <;> ring

lemma list_sum_zero_of_nonneg {l : List ℚ} (h0 : ∀ x ∈ l, 0 ≤ x) (hs : l.sum = 0) :
    ∀ x ∈ l, x = 0 := by
  induction l with
  | nil => intro x hx; simp at hx
  | cons a t ih =>
      intro x hx
      have ha : 0 ≤ a := h0 a (by simp)
      have ht : 0 ≤ t.sum := List.sum_nonneg (fun y hy => h0 y (by simp [hy]))
      have hsum : a + t.sum = 0 := by simpa using hs
      rcases List.mem_cons.mp hx with rfl | hx'
      · linarith
      · exact ih (fun y hy => h0 y (by simp [hy])) (by linarith) x hx'

lemma person_total_eq_zero (bill : Bill) (uid : Nat)
    (hp : ∀ item ∈ bill.items, 0 ≤ item.price) (hs : bill_total bill = 0) :
    person_total bill uid = 0 := by
  unfold bill_total at hs
  unfold person_total
  apply List.sum_eq_zero
  intro x hx
  simp only [List.mem_map] at hx
  obtain ⟨item, hitem, rfl⟩ := hx
  have hpz : item.price = 0 := by
    have := list_sum_zero_of_nonneg (l := bill.items.map (fun i => i.price))
      (by intro y hy; simp only [List.mem_map] at hy; obtain ⟨i, hi, rfl⟩ := hy; exact hp i hi)
      hs
    exact this item.price (List.mem_map_of_mem (fun i => i.price) hitem)
  have hppz : item_per_person item = 0 := by
    unfold item_per_person
    split <;> simp [hpz]
  split <;> simp [hppz]

/-! ## Claim theorems -/

/-- C9: for every item, the per-person share equals
`price / max(1, number of claims)`; in particular an item with zero claims is
priced at its full value and the computation never divides by zero. -/
theorem per_person_share_eq_price_div_max (item : Item) :
    item_per_person item = item.price / ((max 1 item.claimed_by.length : ℕ) : ℚ) := by
  unfold item_per_person
  rcases Nat.eq_zero_or_pos item.claimed_by.length with h | h
  · simp [h]
  · rw [if_pos h, Nat.max_eq_right h]

/-- The spec's per-mode grand-total table (§4.2), stated from the spec text. -/
def grand_total_spec (subtotal sc_pct vat_pct : ℚ) : Option FeesMode → ℚ
  | some FeesMode.both_inclusive => subtotal
  | some FeesMode.sc_exclusive_vat_inclusive => subtotal * (1 + sc_pct / 100)
  | some FeesMode.both_exclusive => subtotal * (1 + sc_pct / 100) * (1 + vat_pct / 100)
  | none => subtotal

/-- C2: for every bill, the grand total equals the per-mode formula applied to
the item subtotal: the subtotal for `AllInclusive` or unset mode,
`subtotal*(1+sc/100)` for `ServiceChargeExclusiveVatInclusive`, and
`subtotal*(1+sc/100)*(1+vat/100)` for `BothExclusive`. -/
theorem grand_total_matches_mode_formula (bill : Bill) :
    bill_grand_total bill =
      grand_total_spec (bill_total bill) (eff_sc bill) (eff_vat bill) bill.fees_mode := by
  unfold bill_grand_total grand_total_spec
  cases hm : bill.fees_mode with
  | none => simp
  | some m => cases m <;> simp

/-- C10: for every bill and member, the proportional-ratio computation
`person_grand_total` returns exactly the value of the `total` component of
`person_fee_breakdown`, in every fee mode and also when the subtotal is zero. -/
theorem person_grand_total_eq_breakdown_total (bill : Bill) (uid : Nat) :
    person_grand_total bill uid = (person_fee_breakdown bill uid).total := by
  rw [breakdown_total_eq_factor]
  unfold person_grand_total
  by_cases h : bill_total bill = 0
  · simp [h]
  · simp only [if_neg h]
    rw [bill_grand_total_eq_factor]
    field_simp
    ring

/-- C6: for every bill whose fee mode is unset (and whose item prices are
non-negative, as every item-creation path guarantees), the stored SC and VAT
values are inert: the grand total equals the item subtotal and every member's
fee breakdown has zero SC amount, zero VAT amount, and a payable equal to that
member's item subtotal. -/
theorem fees_inert_when_mode_unset (bill : Bill)
    (hp : ∀ item ∈ bill.items, 0 ≤ item.price) (hm : bill.fees_mode = none) :
    bill_grand_total bill = bill_total bill ∧
    ∀ uid, person_fee_breakdown bill uid =
      ⟨person_total bill uid, 0, 0, person_total bill uid⟩ := by
  constructor
  · unfold bill_grand_total; simp [hm]
  · intro uid
    unfold person_fee_breakdown
    by_cases h : bill_total bill = 0
    · rw [if_pos h]
      have h0 := person_total_eq_zero bill uid hp h
      simp [h0]
    · rw [if_neg h]
      simp [hm]

/-- A concrete bill with mode unset but nonzero stored percentages. -/
def bill_c6 : Bill :=
  { creator_id := 1, currency := some Currency.THB, jpy_to_thb_rate := none,
    service_charge_pct := some 10, vat_pct := some 7, fees_mode := none,
    items := [⟨1, "A", 100, [⟨1, "X"⟩]⟩],
    members := [(1, "X")], next_item_id := 2, is_finalized := false,
    awaiting_photo := false, awaiting_manual_rate := false, awaiting_fees := false }

/-- Witness for C6 at a concrete bill with stored SC 10% and VAT 7%. -/
theorem fees_inert_when_mode_unset_witness :
    (∀ item ∈ bill_c6.items, 0 ≤ item.price) ∧
    bill_grand_total bill_c6 = bill_total bill_c6 ∧
    person_fee_breakdown bill_c6 1 =
      ⟨person_total bill_c6 1, 0, 0, person_total bill_c6 1⟩ :=
  ⟨by decide,
   (fees_inert_when_mode_unset bill_c6 (by decide) rfl).1,
   (fees_inert_when_mode_unset bill_c6 (by decide) rfl).2 1⟩

lemma toggle_claims_twice_perm (cl : List Claim) (uid : Nat) (name : String)
    (h : cl.filter (fun c => c.user_id == uid) = [] ∨
         cl.filter (fun c => c.user_id == uid) = [⟨uid, name⟩]) :
    List.Perm (toggle_claims (toggle_claims cl uid name) uid name) cl := by
  rcases h with h | h
  · -- the member holds no claim: the first toggle appends, the second removes it
    have hne : ∀ c ∈ cl, ¬((fun c : Claim => c.user_id == uid) c = true) :=
      List.filter_eq_nil_iff.mp h
    have hany : cl.any (fun c => c.user_id == uid) = false :=
      List.any_eq_false.mpr hne
    unfold toggle_claims
    rw [hany]
    simp only [Bool.false_eq_true, if_false]
    have hany2 : (cl ++ [(⟨uid, name⟩ : Claim)]).any (fun c => c.user_id == uid) = true := by
      rw [List.any_eq_true]
      exact ⟨⟨uid, name⟩, by simp⟩
    rw [hany2]
    simp only [if_true, List.filter_append]
    have h1 : cl.filter (fun c => c.user_id != uid) = cl := by
      rw [List.filter_eq_self]
      intro c hc
      simpa using hne c hc
    have h2 : ([(⟨uid, name⟩ : Claim)]).filter (fun c => c.user_id != uid) = [] := by
      simp
    rw [h1, h2, List.append_nil]
  · -- the member holds exactly the claim `⟨uid, name⟩`: remove then re-append
    have hmem : (⟨uid, name⟩ : Claim) ∈ cl.filter (fun c => c.user_id == uid) := by
      rw [h]; simp
    have hany : cl.any (fun c => c.user_id == uid) = true := by
      rw [List.any_eq_true]
      exact ⟨⟨uid, name⟩, (List.mem_filter.mp hmem).1, (List.mem_filter.mp hmem).2⟩
    unfold toggle_claims
    rw [hany]
    simp only [if_true]
    have hany2 : (cl.filter (fun c => c.user_id != uid)).any (fun c => c.user_id == uid)
        = false := by
      rw [List.any_eq_false]
      intro c hc
      have := (List.mem_filter.mp hc).2
      simpa using this
    rw [hany2]
    simp only [Bool.false_eq_true, if_false]
    have hstep : cl.filter (fun c => c.user_id != uid) ++ [(⟨uid, name⟩ : Claim)] =
        cl.filter (fun c => !(c.user_id == uid)) ++ cl.filter (fun c => c.user_id == uid) := by
      rw [h]
      rfl
    rw [hstep]
    exact (List.perm_append_comm).trans (cl.filter_append_perm (fun c => c.user_id == uid))

lemma find_update_item (items : List Item) (item_id : Nat) (f : Item → Item)
    (hf : ∀ it, (f it).id = it.id) :
    (update_item items item_id f).find? (fun it => it.id == item_id) =
      (items.find? (fun it => it.id == item_id)).map f := by
  induction items with
  | nil => rfl
  | cons it rest ih =>
      unfold update_item
      by_cases hid : (it.id == item_id) = true
      · rw [if_pos hid]
        rw [List.find?_cons_of_pos (p := fun (it : Item) => it.id == item_id) _
              (by show ((f it).id == item_id) = true; rw [hf]; exact hid),
            List.find?_cons_of_pos (p := fun (it : Item) => it.id == item_id) _ hid]
        rfl
      · rw [if_neg hid]
        rw [List.find?_cons_of_neg (p := fun (it : Item) => it.id == item_id) _ hid,
            List.find?_cons_of_neg (p := fun (it : Item) => it.id == item_id) _ hid]
        exact ih

lemma get_item_pick_callback (bill : Bill) (uid : Nat) (name : String) (item_id : Nat)
    (item : Item) (hfind : get_item bill item_id = some item) :
    get_item (pick_callback bill uid name item_id) item_id =
      some { item with claimed_by := toggle_claims item.claimed_by uid name } := by
  unfold pick_callback
  rw [hfind]
  unfold get_item at hfind ⊢
  simp only
  rw [find_update_item bill.items item_id
        (fun item => { item with claimed_by := toggle_claims item.claimed_by uid name })
        (fun it => rfl),
      hfind]
  rfl

lemma toggle_claims_flips (cl : List Claim) (uid : Nat) (name : String) :
    (toggle_claims cl uid name).any (fun c => c.user_id == uid) =
      !(cl.any (fun c => c.user_id == uid)) := by
  unfold toggle_claims
  by_cases h : cl.any (fun c => c.user_id == uid) = true
  · rw [if_pos h, h]
    simp only [Bool.not_true]
    rw [List.any_eq_false]
    intro c hc
    have := (List.mem_filter.mp hc).2
    simpa using this
  · have hf : cl.any (fun c => c.user_id == uid) = false := Bool.eq_false_iff.mpr h
    rw [if_neg h, hf]
    simp only [Bool.not_false]
    rw [List.any_eq_true]
    exact ⟨⟨uid, name⟩, by simp⟩

/-- C5: for every bill, item and member, invoking the pick-button claim toggle
twice with the same item and member restores the item's claim set exactly (as
a set: up to ordering of the `claimed_by` list); the first invocation flips
the member's claim (adds it when absent, removes it when present) and the
second undoes it.  The hypothesis states the invariant every claim-adding
code path maintains: the member holds at most one claim on the item, recorded
under their current display name. -/
theorem pick_toggle_twice_restores_claims (bill : Bill) (uid : Nat) (name : String)
    (item_id : Nat) (item : Item) (hfind : get_item bill item_id = some item)
    (h : item.claimed_by.filter (fun c => c.user_id == uid) = [] ∨
         item.claimed_by.filter (fun c => c.user_id == uid) = [⟨uid, name⟩]) :
    ∃ mid itm2,
      get_item (pick_callback bill uid name item_id) item_id = some mid ∧
      claims_user mid uid = !(claims_user item uid) ∧
      get_item (pick_callback (pick_callback bill uid name item_id) uid name item_id)
        item_id = some itm2 ∧
      List.Perm itm2.claimed_by item.claimed_by ∧
      itm2.id = item.id ∧ itm2.name = item.name ∧ itm2.price = item.price := by
  have h1 := get_item_pick_callback bill uid name item_id item hfind
  have h2 := get_item_pick_callback (pick_callback bill uid name item_id) uid name item_id
    { item with claimed_by := toggle_claims item.claimed_by uid name } h1
  refine ⟨_, _, h1, ?_, h2, ?_, rfl, rfl, rfl⟩
  · exact toggle_claims_flips item.claimed_by uid name
  · exact toggle_claims_twice_perm item.claimed_by uid name h

/-- A concrete bill for the C5 witness: member 7 already claims item 1. -/
def bill_c5 : Bill :=
  { creator_id := 1, currency := some Currency.THB, jpy_to_thb_rate := none,
    service_charge_pct := none, vat_pct := none, fees_mode := none,
    items := [⟨1, "A", 100, [⟨5, "W"⟩, ⟨7, "Z"⟩]⟩],
    members := [(1, "X"), (5, "W"), (7, "Z")], next_item_id := 2, is_finalized := false,
    awaiting_photo := false, awaiting_manual_rate := false, awaiting_fees := false }

/-- Witness for C5: toggling member 7 off and on item 1 twice restores the
claim set `{5, 7}`, with the first toggle removing the claim. -/
theorem pick_toggle_twice_restores_claims_witness :
    get_item bill_c5 1 = some ⟨1, "A", 100, [⟨5, "W"⟩, ⟨7, "Z"⟩]⟩ ∧
    ∃ mid itm2,
      get_item (pick_callback bill_c5 7 "Z" 1) 1 = some mid ∧
      claims_user mid 7 = !(claims_user ⟨1, "A", 100, [⟨5, "W"⟩, ⟨7, "Z"⟩]⟩ 7) ∧
      get_item (pick_callback (pick_callback bill_c5 7 "Z" 1) 7 "Z" 1) 1 = some itm2 ∧
      List.Perm itm2.claimed_by [⟨5, "W"⟩, ⟨7, "Z"⟩] ∧
      itm2.id = 1 ∧ itm2.name = "A" ∧ itm2.price = 100 :=
  ⟨by decide,
   pick_toggle_twice_restores_claims bill_c5 7 "Z" 1 ⟨1, "A", 100, [⟨5, "W"⟩, ⟨7, "Z"⟩]⟩
     (by decide) (Or.inr (by decide))⟩

/-- C7: for every bill, item, and member who already holds a claim on that
item, `/assign` invoked by the creator returns the `already_claimed` failure
and leaves the whole session (in particular the item's claim set) unchanged —
it never toggles the claim off. -/
theorem assign_already_claimed_unchanged (bill : Bill) (caller item_id : Nat)
    (username : String) (item : Item) (target : Nat × String)
    (hc : caller = bill.creator_id)
    (hfind : get_item bill item_id = some item)
    (hmem : find_member_by_name bill username = some target)
    (hclaimed : item.claimed_by.any (fun c => c.user_id == target.1) = true) :
    cmd_assign bill caller item_id username = (bill, AssignResult.already_claimed) := by
  unfold cmd_assign
  simp [hc, hfind, hmem, hclaimed]

/-- A concrete bill for the C7 witness: member 5 already claims item 1. -/
def bill_c7 : Bill :=
  { creator_id := 1, currency := some Currency.THB, jpy_to_thb_rate := none,
    service_charge_pct := none, vat_pct := none, fees_mode := none,
    items := [⟨1, "A", 100, [⟨5, "@walt"⟩]⟩],
    members := [(1, "X"), (5, "@walt")], next_item_id := 2, is_finalized := false,
    awaiting_photo := false, awaiting_manual_rate := false, awaiting_fees := false }

/-- Witness for C7: the creator re-assigning item 1 to `@walt`, who already
claims it, fails with `already_claimed` and leaves the session unchanged. -/
theorem assign_already_claimed_unchanged_witness :
    (1 : Nat) = bill_c7.creator_id ∧
    get_item bill_c7 1 = some ⟨1, "A", 100, [⟨5, "@walt"⟩]⟩ ∧
    find_member_by_name bill_c7 "walt" = some (5, "@walt") ∧
    cmd_assign bill_c7 1 1 "walt" = (bill_c7, AssignResult.already_claimed) :=
  ⟨rfl, by decide, by decide,
   assign_already_claimed_unchanged bill_c7 1 1 "walt" ⟨1, "A", 100, [⟨5, "@walt"⟩]⟩
     (5, "@walt") rfl (by decide) (by decide) (by decide)⟩

/-- C8: for every active (non-finalized) session, finalization via `/done` or
the finalize button fails on an empty ledger, leaving the session
non-finalized and otherwise unchanged; with at least one item it marks the
session finalized. -/
theorem finalize_empty_bill_fails (bill : Bill) (hact : bill.is_finalized = false) :
    (bill.items = [] →
        apply_event bill Event.done = some bill ∧
        apply_event bill Event.finalize_button = some bill) ∧
    (bill.items ≠ [] →
        apply_event bill Event.done = some { bill with is_finalized := true } ∧
        apply_event bill Event.finalize_button = some { bill with is_finalized := true }) := by
  unfold apply_event cmd_done
  rw [hact]
  constructor
  · intro hempty
    simp [hempty]
  · intro hne
    simp [List.isEmpty_iff, hne]

/-- A concrete active session with an empty ledger. -/
def bill_c8 : Bill :=
  { creator_id := 1, currency := some Currency.THB, jpy_to_thb_rate := none,
    service_charge_pct := none, vat_pct := none, fees_mode := none,
    items := [], members := [(1, "X")], next_item_id := 1, is_finalized := false,
    awaiting_photo := false, awaiting_manual_rate := false, awaiting_fees := false }

/-- Witness for C8 at a concrete empty active session. -/
theorem finalize_empty_bill_fails_witness :
    bill_c8.is_finalized = false ∧
    (bill_c8.items = [] →
        apply_event bill_c8 Event.done = some bill_c8 ∧
        apply_event bill_c8 Event.finalize_button = some bill_c8) ∧
    (bill_c8.items ≠ [] →
        apply_event bill_c8 Event.done = some { bill_c8 with is_finalized := true } ∧
        apply_event bill_c8 Event.finalize_button = some { bill_c8 with is_finalized := true }) :=
  ⟨rfl, finalize_empty_bill_fails bill_c8 rfl⟩

/-- A concrete session whose currency is already set to THB. -/
def bill_c3 : Bill :=
  { creator_id := 1, currency := some Currency.THB, jpy_to_thb_rate := none,
    service_charge_pct := none, vat_pct := none, fees_mode := none,
    items := [], members := [(1, "X")], next_item_id := 1, is_finalized := false,
    awaiting_photo := false, awaiting_manual_rate := false, awaiting_fees := false }

/-- Counterexample to C3 as stated: a second currency-selection event by the
creator changes the already-set currency from THB to JPY — the handler has no
"already set" guard. -/
theorem currency_not_immutable :
    bill_c3.currency = some Currency.THB ∧
    apply_event bill_c3 (Event.currency_choice 1 Currency.JPY) =
      some { bill_c3 with currency := some Currency.JPY } ∧
    some Currency.JPY ≠ some Currency.THB := by
  refine ⟨rfl, ?_, by decide⟩
  rfl

/-- Is this event a currency-selection callback? -/
def is_currency_event : Event → Bool
  | Event.currency_choice _ _ => true
  | _ => false

/-- C3 (amended): every operation other than a currency-selection event
preserves the session's currency. -/
theorem currency_unchanged_by_non_currency_events (bill : Bill) (e : Event) (b' : Bill)
    (happ : apply_event bill e = some b') (hne : is_currency_event e = false) :
    b'.currency = bill.currency := by
  unfold apply_event at happ
  by_cases hfin : bill.is_finalized = true
  · rw [if_pos hfin] at happ
    cases happ
    rfl
  · rw [if_neg hfin] at happ
    cases e with
    | join uid name =>
        cases happ
        unfold cmd_join
        split <;> rfl
    | additem name price =>
        cases happ
        unfold cmd_additem add_item_to_bill
        split <;> rfl
    | pick_cmd uid name item_id =>
        cases happ
        unfold cmd_pick
        split
        · rfl
        · rcases get_item bill item_id with _ | item
          · rfl
          · simp only
            split <;> rfl
    | unpick uid item_id =>
        cases happ
        unfold cmd_unpick
        rcases get_item bill item_id with _ | item <;> rfl
    | assign uid item_id username =>
        cases happ
        unfold cmd_assign
        split
        · rfl
        · rcases get_item bill item_id with _ | item
          · rfl
          · simp only
            rcases find_member_by_name bill username with _ | target
            · rfl
            · simp only
              split <;> rfl
    | resetpicks uid =>
        cases happ
        rfl
    | setfees sc vat mode =>
        cases happ
        unfold cmd_setfees
        split
        · rfl
        · split <;> rfl
    | done =>
        cases happ
        unfold cmd_done
        split <;> rfl
    | cancel uid =>
        have happ' : (if (uid != bill.creator_id) = true then some bill else none)
            = some b' := happ
        split at happ'
        · cases happ'; rfl
        · cases happ'
    | currency_choice uid cur =>
        simp [is_currency_event] at hne
    | rate_auto fetched =>
        cases happ
        unfold rate_auto_callback
        rcases fetched with _ | r
        · rfl
        · simp only
          split <;> rfl
    | rate_manual => cases happ; rfl
    | input_photo => cases happ; rfl
    | input_manual => cases happ; rfl
    | fees_confirm sc vat mode => cases happ; rfl
    | fees_edit => cases happ; rfl
    | fees_none => cases happ; rfl
    | pick_button uid name item_id =>
        cases happ
        unfold pick_callback
        rcases get_item bill item_id with _ | item <;> rfl
    | finalize_button =>
        cases happ
        unfold cmd_done
        split <;> rfl
    | rate_text rate =>
        cases happ
        unfold manual_rate_text
        split
        · rfl
        · split <;> rfl
    | photo extracted =>
        cases happ
        unfold photo_result
        have key : ∀ (ps : List (String × ℚ)) (b : Bill),
            (ps.foldl (fun acc p => (add_item_to_bill acc p.1 p.2).1) b).currency =
              b.currency := by
          intro ps
          induction ps with
          | nil => intro b; rfl
          | cons p rest ih => intro b; rw [List.foldl_cons]; exact ih _
        exact key extracted _

/-- Witness for the amended C3: a `/join` event preserves the currency. -/
theorem currency_unchanged_witness :
    is_currency_event (Event.join 2 "Y") = false ∧
    (cmd_join bill_c3 2 "Y").currency = bill_c3.currency :=
  ⟨rfl, currency_unchanged_by_non_currency_events bill_c3 (Event.join 2 "Y")
    (cmd_join bill_c3 2 "Y") rfl rfl⟩

/-- C4: the only numeric validation of `/additem` is `price <= 0`, an IEEE
comparison that is false for `inf` and `nan`; the non-finite prices Python's
`float()` parses from the strings `"inf"` and `"nan"` are therefore accepted
and an item is appended, where the specification requires `InvalidInput` and
an unchanged bill. -/
theorem additem_accepts_non_finite_price :
    additem_price_accepted PyFloat.pos_inf = true ∧
    additem_price_accepted PyFloat.nan = true := by
  exact ⟨rfl, rfl⟩

/-! ## Conservation (C1) -/

/-- Does the user hold at least one claim somewhere on the bill? -/
def has_claim (bill : Bill) (uid : Nat) : Bool :=
  bill.items.any (fun item => item.claimed_by.any (fun c => c.user_id == uid))

/-- The members of the bill who hold at least one claim. -/
def members_with_claims (bill : Bill) : List (Nat × String) :=
  bill.members.filter (fun m => has_claim bill m.1)

/-- Sum of the payable totals of the per-person fee breakdown over all
members who hold at least one claim. -/
def payable_sum (bill : Bill) : ℚ :=
  ((members_with_claims bill).map (fun m => (person_fee_breakdown bill m.1).total)).sum

/-- Sum of the raw prices of the items with zero claims. -/
def unclaimed_price_sum (bill : Bill) : ℚ :=
  ((bill.items.filter (fun item => item.claimed_by.isEmpty)).map (fun item => item.price)).sum

/-- The bill restricted to its zero-claim items: applying `bill_grand_total`
to it prices the unclaimed items under the bill's own fee formulas. -/
def unclaimed_bill (bill : Bill) : Bill :=
  { bill with items := bill.items.filter (fun item => item.claimed_by.isEmpty) }

/-- A bill with one unclaimed 100-unit item under `both_exclusive`
SC 10% / VAT 7%. -/
def bill_c1 : Bill :=
  { creator_id := 1, currency := some Currency.THB, jpy_to_thb_rate := none,
    service_charge_pct := some 10, vat_pct := some 7,
    fees_mode := some FeesMode.both_exclusive,
    items := [⟨1, "A", 100, []⟩], members := [(1, "X")], next_item_id := 2,
    is_finalized := false,
    awaiting_photo := false, awaiting_manual_rate := false, awaiting_fees := false }

/-- Counterexample to C1 as stated: with an unclaimed item and an exclusive
fee mode, the payable sum plus the *raw* prices of zero-claim items
(`0 + 100`) misses the grand total (`117.7`) by far more than the 1e-6
relative tolerance. -/
theorem conservation_raw_unclaimed_fails :
    payable_sum bill_c1 + unclaimed_price_sum bill_c1 = 100 ∧
    bill_grand_total bill_c1 = 1177 / 10 ∧
    bill_grand_total bill_c1 - (payable_sum bill_c1 + unclaimed_price_sum bill_c1) >
      bill_grand_total bill_c1 * (1 / 1000000) := by
  have hpay : payable_sum bill_c1 = 0 := by
    norm_num [payable_sum, members_with_claims, has_claim, bill_c1]
  have hU : unclaimed_price_sum bill_c1 = 100 := by
    norm_num [unclaimed_price_sum, bill_c1]
  have hg : bill_grand_total bill_c1 = 1177 / 10 := by
    norm_num [bill_grand_total, bill_total, eff_sc, eff_vat, bill_c1]
  rw [hpay, hU, hg]
  norm_num

lemma sum_map_add {α : Type} (l : List α) (f g : α → ℚ) :
    (l.map (fun x => f x + g x)).sum = (l.map f).sum + (l.map g).sum := by
  induction l with
  | nil => simp
  | cons x xs ih =>
      simp only [List.map_cons, List.sum_cons, ih]
      ring

lemma sum_map_ite_count {α : Type} (l : List α) (p : α → Bool) (v : ℚ) :
    (l.map (fun x => if p x then v else 0)).sum = (l.filter p).length * v := by
  induction l with
  | nil => simp
  | cons x xs ih =>
      rw [List.map_cons, List.sum_cons, ih, List.filter_cons]
      by_cases h : p x = true
      · rw [if_pos h, if_pos h, List.length_cons]
        push_cast
        ring
      · rw [if_neg h, if_neg h, zero_add]

lemma sum_filter_eq_sum {α : Type} (l : List α) (q : α → Bool) (f : α → ℚ)
    (h : ∀ x ∈ l, q x = false → f x = 0) :
    ((l.filter q).map f).sum = (l.map f).sum := by
  induction l with
  | nil => simp
  | cons x xs ih =>
      have ihx := ih (fun y hy hqy => h y (List.mem_cons_of_mem x hy) hqy)
      rw [List.filter_cons]
      by_cases hq : q x = true
      · rw [if_pos hq, List.map_cons, List.sum_cons, List.map_cons, List.sum_cons, ihx]
      · have hfx : f x = 0 := h x (List.mem_cons_self x xs) (Bool.eq_false_iff.mpr hq)
        rw [if_neg hq, List.map_cons, List.sum_cons, hfx, zero_add, ihx]

lemma length_filter_key {α : Type} (key : α → Nat) (S : List α) (T : List Nat)
    (hS : (S.map key).Nodup) (hT : T.Nodup) (hsub : ∀ t ∈ T, t ∈ S.map key) :
    (S.filter (fun s => decide (key s ∈ T))).length = T.length := by
  induction S generalizing T with
  | nil =>
      cases T with
      | nil => simp
      | cons t ts => exact absurd (hsub t (by simp)) (by simp)
  | cons s S' ih =>
      have hS' : (S'.map key).Nodup := (List.nodup_cons.mp (by simpa using hS)).2
      have hks : key s ∉ S'.map key := (List.nodup_cons.mp (by simpa using hS)).1
      rw [List.filter_cons]
      by_cases hsT : key s ∈ T
      · rw [if_pos (by simpa using hsT), List.length_cons]
        have hcongr : S'.filter (fun x => decide (key x ∈ T)) =
            S'.filter (fun x => decide (key x ∈ T.erase (key s))) := by
          apply List.filter_congr
          intro x hx
          have hxs : key x ≠ key s := by
            intro he
            exact hks (he ▸ List.mem_map_of_mem key hx)
          simp only [decide_eq_decide]
          rw [hT.mem_erase_iff]
          exact ⟨fun hm => ⟨hxs, hm⟩, fun hm => hm.2⟩
        have hsub' : ∀ t ∈ T.erase (key s), t ∈ S'.map key := by
          intro t ht
          have hne := hT.mem_erase_iff.mp ht
          have hmem := hsub t hne.2
          rw [List.map_cons] at hmem
          rcases List.mem_cons.mp hmem with he | hm
          · exact absurd he hne.1
          · exact hm
        rw [hcongr, ih (T.erase (key s)) hS' (hT.erase (key s)) hsub',
            List.length_erase_of_mem hsT]
        have hpos : 0 < T.length := List.length_pos_of_mem hsT
        omega
      · rw [if_neg (by simpa using hsT)]
        have hsub' : ∀ t ∈ T, t ∈ S'.map key := by
          intro t ht
          have hmem := hsub t ht
          rw [List.map_cons] at hmem
          rcases List.mem_cons.mp hmem with he | hm
          · exact absurd (he ▸ ht) hsT
          · exact hm
        exact ih T hS' hT hsub'

lemma any_eq_decide_mem (cl : List Claim) (u : Nat) :
    (cl.any (fun c => c.user_id == u)) = decide (u ∈ cl.map Claim.user_id) := by
  rw [Bool.eq_iff_iff]
  simp only [List.any_eq_true, beq_iff_eq, decide_eq_true_eq, List.mem_map]

lemma sum_members_item_share (ms : List (Nat × String)) (item : Item)
    (hms : (ms.map Prod.fst).Nodup)
    (hcl : (item.claimed_by.map Claim.user_id).Nodup)
    (hsub : ∀ c ∈ item.claimed_by, c.user_id ∈ ms.map Prod.fst) :
    (ms.map (fun m => if claims_user item m.1 then item_per_person item else 0)).sum =
      if item.claimed_by.isEmpty then 0 else item.price := by
  rw [sum_map_ite_count]
  have hpred : ms.filter (fun m => claims_user item m.1) =
      ms.filter (fun m => decide (m.1 ∈ item.claimed_by.map Claim.user_id)) := by
    apply List.filter_congr
    intro m _
    exact any_eq_decide_mem item.claimed_by m.1
  have hcount : (ms.filter (fun m => claims_user item m.1)).length =
      item.claimed_by.length := by
    rw [hpred, length_filter_key Prod.fst ms (item.claimed_by.map Claim.user_id) hms hcl
        (fun t ht => by
          simp only [List.mem_map] at ht
          obtain ⟨c, hc, rfl⟩ := ht
          exact hsub c hc)]
    rw [List.length_map]
  rw [hcount]
  by_cases he : item.claimed_by.isEmpty = true
  · have h0 : item.claimed_by.length = 0 := by
      rw [List.isEmpty_iff] at he
      simp [he]
    rw [if_pos he, h0]
    simp
  · have hlen : 0 < item.claimed_by.length := by
      rcases Nat.eq_zero_or_pos item.claimed_by.length with h | h
      · exact absurd (by simpa [List.isEmpty_iff] using List.length_eq_zero.mp h) he
      · exact h
    rw [if_neg he]
    unfold item_per_person
    rw [if_pos hlen]
    have hne : (item.claimed_by.length : ℚ) ≠ 0 := by
      exact_mod_cast Nat.pos_iff_ne_zero.mp hlen
    field_simp

lemma sum_members_items (ms : List (Nat × String)) (items : List Item)
    (hms : (ms.map Prod.fst).Nodup)
    (hcl : ∀ item ∈ items, (item.claimed_by.map Claim.user_id).Nodup)
    (hsub : ∀ item ∈ items, ∀ c ∈ item.claimed_by, c.user_id ∈ ms.map Prod.fst) :
    (ms.map (fun m =>
        (items.map (fun item =>
          if claims_user item m.1 then item_per_person item else 0)).sum)).sum
      = (items.map (fun item => item.price)).sum
        - ((items.filter (fun item => item.claimed_by.isEmpty)).map
            (fun item => item.price)).sum := by
  induction items with
  | nil => simp
  | cons it rest ih =>
      have hih := ih (fun i hi => hcl i (List.mem_cons_of_mem it hi))
        (fun i hi => hsub i (List.mem_cons_of_mem it hi))
      have hhead := sum_members_item_share ms it hms (hcl it (List.mem_cons_self it rest))
        (hsub it (List.mem_cons_self it rest))
      have hfun : (fun (m : Nat × String) =>
            ((it :: rest).map (fun item =>
              if claims_user item m.1 then item_per_person item else 0)).sum)
          = fun m => (if claims_user it m.1 then item_per_person it else 0)
              + (rest.map (fun item =>
                  if claims_user item m.1 then item_per_person item else 0)).sum := by
        funext m
        rw [List.map_cons, List.sum_cons]
      rw [hfun, sum_map_add, hhead, hih, List.map_cons, List.sum_cons, List.filter_cons]
      by_cases he : it.claimed_by.isEmpty = true
      · rw [if_pos he, if_pos he, List.map_cons, List.sum_cons]
        ring
      · rw [if_neg he, if_neg he]
        ring

lemma breakdown_total_zero_of_no_claim (bill : Bill) (uid : Nat)
    (h : has_claim bill uid = false) :
    (person_fee_breakdown bill uid).total = 0 := by
  rw [breakdown_total_eq_factor]
  by_cases h0 : bill_total bill = 0
  · rw [if_pos h0]
  · rw [if_neg h0]
    have hpt : person_total bill uid = 0 := by
      unfold person_total
      apply List.sum_eq_zero
      intro x hx
      simp only [List.mem_map] at hx
      obtain ⟨item, hitem, rfl⟩ := hx
      have hcu : claims_user item uid = false := by
        unfold has_claim at h
        rw [List.any_eq_false] at h
        have := h item hitem
        unfold claims_user
        simpa using this
      rw [hcu]
      simp
    rw [hpt, mul_zero]

lemma payable_sum_eq_sum_members (bill : Bill) :
    payable_sum bill =
      (bill.members.map (fun m => (person_fee_breakdown bill m.1).total)).sum := by
  unfold payable_sum members_with_claims
  exact sum_filter_eq_sum bill.members _ _
    (fun m _ hq => breakdown_total_zero_of_no_claim bill m.1 hq)

/-- C1 (amended): the payable sum over members holding at least one claim,
plus the zero-claim items priced *under the same per-mode fee formulas*
(the bill's grand-total formula applied to the zero-claim items alone),
equals the bill's grand total — exactly, hence within any tolerance.  The
hypotheses are the invariants every code path maintains: positive prices,
distinct member ids (a dict), at most one claim per member per item, and
every claimant joined as a member. -/
theorem conservation_with_fee_on_unclaimed (bill : Bill)
    (hp : ∀ item ∈ bill.items, 0 ≤ item.price)
    (hms : (bill.members.map Prod.fst).Nodup)
    (hcl : ∀ item ∈ bill.items, (item.claimed_by.map Claim.user_id).Nodup)
    (hsub : ∀ item ∈ bill.items, ∀ c ∈ item.claimed_by,
        c.user_id ∈ bill.members.map Prod.fst) :
    payable_sum bill + bill_grand_total (unclaimed_bill bill) = bill_grand_total bill := by
  have hfacU : bill_grand_total (unclaimed_bill bill) =
      fee_factor (eff_sc bill) (eff_vat bill) bill.fees_mode * unclaimed_price_sum bill := by
    rw [bill_grand_total_eq_factor (unclaimed_bill bill)]
    rfl
  rw [payable_sum_eq_sum_members, bill_grand_total_eq_factor bill, hfacU]
  by_cases h0 : bill_total bill = 0
  · have hz : ∀ x ∈ bill.items.map (fun item => item.price), x = 0 :=
      list_sum_zero_of_nonneg
        (by
          intro y hy
          simp only [List.mem_map] at hy
          obtain ⟨i, hi, rfl⟩ := hy
          exact hp i hi)
        (by unfold bill_total at h0; exact h0)
    have hU0 : unclaimed_price_sum bill = 0 := by
      unfold unclaimed_price_sum
      apply List.sum_eq_zero
      intro x hx
      simp only [List.mem_map] at hx
      obtain ⟨i, hi, rfl⟩ := hx
      exact hz i.price (List.mem_map_of_mem _ (List.mem_of_mem_filter hi))
    have hTz : (bill.members.map (fun m => (person_fee_breakdown bill m.1).total)).sum
        = 0 := by
      apply List.sum_eq_zero
      intro x hx
      simp only [List.mem_map] at hx
      obtain ⟨m, hm, rfl⟩ := hx
      rw [breakdown_total_eq_factor, if_pos h0]
    rw [hTz, h0, hU0]
    ring
  · have hfun : (fun (m : Nat × String) => (person_fee_breakdown bill m.1).total)
        = fun m => fee_factor (eff_sc bill) (eff_vat bill) bill.fees_mode *
            person_total bill m.1 := by
      funext m
      rw [breakdown_total_eq_factor, if_neg h0]
    have hsum := sum_members_items bill.members bill.items hms hcl hsub
    have hbt : (bill.items.map (fun item => item.price)).sum = bill_total bill := rfl
    have hup : ((bill.items.filter (fun item => item.claimed_by.isEmpty)).map
        (fun item => item.price)).sum = unclaimed_price_sum bill := rfl
    rw [hbt, hup] at hsum
    rw [hfun, List.sum_map_mul_left]
    have hpt : (fun (m : Nat × String) => person_total bill m.1)
        = fun m => (bill.items.map (fun item =>
            if claims_user item m.1 then item_per_person item else 0)).sum := rfl
    rw [hpt, hsum]
    ring

/-- The §8 scenario bill plus one unclaimed 100-unit item. -/
def bill_c1w : Bill :=
  { creator_id := 1, currency := some Currency.THB, jpy_to_thb_rate := none,
    service_charge_pct := some 10, vat_pct := some 7,
    fees_mode := some FeesMode.both_exclusive,
    items := [⟨1, "A", 300, [⟨1, "X"⟩]⟩, ⟨2, "B", 200, [⟨2, "Y"⟩]⟩, ⟨3, "C", 100, []⟩],
    members := [(1, "X"), (2, "Y")], next_item_id := 4, is_finalized := false,
    awaiting_photo := false, awaiting_manual_rate := false, awaiting_fees := false }

/-- Witness for the amended C1 at the spec's §8 scenario extended with an
unclaimed item. -/
theorem conservation_with_fee_on_unclaimed_witness :
    (∀ item ∈ bill_c1w.items, 0 ≤ item.price) ∧
    (bill_c1w.members.map Prod.fst).Nodup ∧
    (∀ item ∈ bill_c1w.items, (item.claimed_by.map Claim.user_id).Nodup) ∧
    (∀ item ∈ bill_c1w.items, ∀ c ∈ item.claimed_by,
        c.user_id ∈ bill_c1w.members.map Prod.fst) ∧
    payable_sum bill_c1w + bill_grand_total (unclaimed_bill bill_c1w) =
      bill_grand_total bill_c1w :=
  ⟨by decide, by decide, by decide, by decide,
   conservation_with_fee_on_unclaimed bill_c1w (by decide) (by decide) (by decide)
     (by decide)⟩

end BillSplit
